import Mathlib

/-!
Verification of the TestGenie backend core (Zephyr test-step workflows).

This file shallowly embeds the relevant parts of the Python sources:

* `app/utils/retry.py` — the resilient request executor (`async_retry`,
  `is_retryable_exception`).
* `app/utils/zephyr_auth.py` — the signed-request canonicalizer
  (`pct_encode`, `canonicalize`, the SHA-256 based query-string hash).
* `app/services/zephyr_service.py` — step creation (`add_test_steps`,
  `_add_single_step`), the step replacement orchestrator
  (`update_test_steps`), the execution linkage
  (`add_test_to_cycle`, `_handle_existing_execution`, `_find_execution`).
* `app/routers/test_case.py` — the bulk full-create fan-out
  (`create_bulk_test_cases`).

Remote HTTP calls are modelled by oracles (functions supplied as
parameters that decide each call's outcome), and every workflow returns,
next to its result, the trace of the logical remote requests it issued,
so that frame properties ("no delete is issued", "no call at all") are
statable.  Python exceptions are modelled with `Except`/explicit outcome
types; Python string truthiness (`if s:`) is modelled by comparison with
the empty string.
-/

namespace TestGenie

/-- Python `needle in haystack` on lists (substring as infix). -/
def listInfix (needle : List Char) : List Char → Bool
  | [] => needle.isEmpty
  | c :: rest => needle.isPrefixOf (c :: rest) || listInfix needle rest

/-- Python `needle in haystack` for strings. -/
def strContains (haystack needle : String) : Bool :=
  listInfix needle.toList haystack.toList

/-- Python `s.strip()`: drop whitespace from both ends (char-list based,
so that it evaluates in proofs; `String.trim` is byte-position based). -/
def pyStrip (s : String) : String :=
  String.mk (((s.toList.dropWhile Char.isWhitespace).reverse.dropWhile
    Char.isWhitespace).reverse)

/-- Python `s.lower()`. -/
def pyLower (s : String) : String :=
  String.mk (s.toList.map Char.toLower)

/-- Python `s.upper()`. -/
def pyUpper (s : String) : String :=
  String.mk (s.toList.map Char.toUpper)

/-- Python `s[:n]` (by characters). -/
def pyTake (s : String) (n : Nat) : String :=
  String.mk (s.toList.take n)

/-- Python `s[n:]` (by characters). -/
def pyDrop (s : String) (n : Nat) : String :=
  String.mk (s.toList.drop n)

/-- Python `s.startswith(pre)`. -/
def pyStartsWith (s pre : String) : Bool :=
  pre.toList.isPrefixOf s.toList

/-- Python truthiness of an `Optional[str]` value (`None` and `""` are falsy). -/
def pyTruthy (o : Option String) : Bool :=
  o.getD "" ≠ ""

/-! ## `app/utils/retry.py` — resilient request executor

The wrapped function is modelled as a map from the (1-based) attempt
number to that attempt's outcome; `async_retry` returns the final
outcome together with the number of times the wrapped function was
called.  The backoff sleeps have no observable effect on the modelled
state and are dropped. -/

/-- Exceptions as classified by `is_retryable_exception`:
`network` collapses the `RETRYABLE_EXCEPTIONS` isinstance tuple
(connect errors, timeouts, DNS failures, OS/connection errors);
`httpStatus` is `httpx.HTTPStatusError` with its status code and
response body; `other` is any remaining exception with its message. -/
inductive PyExn where
  | network (msg : String)
  | httpStatus (code : Nat) (body : String)
  | other (msg : String)
deriving DecidableEq, Repr

/-- `RETRYABLE_STATUS_CODES` from `retry.py`. -/
def RETRYABLE_STATUS_CODES : List Nat := [408, 429, 500, 502, 503, 504]

/-- `retryable_messages` from `is_retryable_exception`. -/
def retryable_messages : List String :=
  ["getaddrinfo failed", "connection reset", "connection refused",
   "timeout", "network is unreachable", "temporary failure in name resolution"]

/-- `is_retryable_exception` from `retry.py`. -/
def is_retryable_exception : PyExn → Bool
  | .network _ => true
  | .httpStatus code _ => RETRYABLE_STATUS_CODES.contains code
  | .other msg => retryable_messages.any (fun m => strContains (pyLower msg) m)

/-- Outcome of `async_retry`: a returned value, a raised exception, or the
(unreachable for `max_attempts ≥ 1`) fall-through `return None` path. -/
inductive RetryOutcome (α : Type) where
  | ok (a : α)
  | raised (e : PyExn)
  | noneReturned
deriving DecidableEq, Repr

/-- The `for attempt in range(1, max_attempts + 1)` loop of `async_retry`.
`attempt` is the current attempt number, `calls` the number of calls to the
wrapped function made so far. -/
def retryGo (f : Nat → Except PyExn α) (maxA : Nat) (attempt : Nat) (calls : Nat) :
    RetryOutcome α × Nat :=
  if _h : maxA < attempt then (.noneReturned, calls)
  else
    match f attempt with
    | .ok a => (.ok a, calls + 1)
    | .error e =>
      if ¬ is_retryable_exception e then (.raised e, calls + 1)
      else if attempt = maxA then (.raised e, calls + 1)
      else retryGo f maxA (attempt + 1) (calls + 1)
termination_by maxA + 1 - attempt
decreasing_by omega

/-- `async_retry` from `retry.py`: retry `f` up to `max_attempts` times,
re-raising non-retryable exceptions immediately.  Returns the outcome and
the number of calls made to the wrapped function. -/
def async_retry (f : Nat → Except PyExn α) (maxA : Nat) : RetryOutcome α × Nat :=
  retryGo f maxA 1 0

/-! ## `app/utils/zephyr_auth.py` — signed-request canonicalizer

`ZephyrAuthHelper.canonicalize` takes the request uri and a raw query
string; the raw query string is parsed by `parse_qsl` into key/value
pairs before the canonical grouping.  The embedding takes those parsed
pairs directly (the output of `parse_qsl` on the merged query string),
which is the level at which the order-invariance claim quantifies. -/

/-- Byte kept verbatim by `urllib.parse.quote(s, safe="~")`:
alphanumerics and `_ . - ~`. -/
def pctSafeByte (b : Nat) : Bool :=
  decide ((48 ≤ b ∧ b ≤ 57) ∨ (65 ≤ b ∧ b ≤ 90) ∨ (97 ≤ b ∧ b ≤ 122) ∨
    b = 45 ∨ b = 46 ∨ b = 95 ∨ b = 126)

/-- Uppercase hex digit (for percent escapes, as `quote` produces). -/
def hexDigitU (n : Nat) : Char :=
  if n < 10 then Char.ofNat (48 + n) else Char.ofNat (55 + n)

/-- Lowercase hex digit (for `hashlib.sha256(...).hexdigest()`). -/
def hexDigitL (n : Nat) : Char :=
  if n < 10 then Char.ofNat (48 + n) else Char.ofNat (87 + n)

/-- Percent-encode one UTF-8 byte. -/
def pctEncodeByte (b : Nat) : String :=
  if pctSafeByte b then String.singleton (Char.ofNat b)
  else String.mk ['%', hexDigitU (b / 16), hexDigitU (b % 16)]

/-- The UTF-8 bytes of a string, as naturals. -/
def utf8Bytes (s : String) : List Nat :=
  s.toUTF8.toList.map (fun b => b.toNat)

/-- `ZephyrAuthHelper.pct_encode`: RFC3986 encoding with space as `%20`,
keeping `~` unescaped. -/
def pct_encode (s : String) : String :=
  String.join ((utf8Bytes s).map pctEncodeByte)

/-- One `multimap.setdefault(ek, []).append(ev)` step: append the value to
the entry for `k` if present (dict keys keep insertion order), else add a
new entry at the end. -/
def addToMultimap : List (String × List String) → String → String → List (String × List String)
  | [], k, v => [(k, [v])]
  | (k0, vs) :: rest, k, v =>
    if k0 = k then (k0, vs ++ [v]) :: rest
    else (k0, vs) :: addToMultimap rest k v

/-- The multimap built from the (already `parse_qsl`-parsed) pairs,
percent-encoding each key and value. -/
def buildMultimap (pairs : List (String × String)) : List (String × List String) :=
  pairs.foldl (fun m p => addToMultimap m (pct_encode p.1) (pct_encode p.2)) []

/-- `pairs = [(k, v) for (k, v) in pairs if k.lower() != "jwt"]`. -/
def dropJwt (pairs : List (String × String)) : List (String × String) :=
  pairs.filter (fun p => pyLower p.1 ≠ "jwt")

/-- The key order of `sorted(..., key=lambda kv: kv[0])`. -/
def keyLE (a b : String × List String) : Prop := a.1 ≤ b.1

instance : DecidableRel keyLE := fun a b => (inferInstance : Decidable (a.1 ≤ b.1))

instance : IsTotal (String × List String) keyLE := ⟨fun a b => le_total a.1 b.1⟩

instance : IsTrans (String × List String) keyLE := ⟨fun _ _ _ h1 h2 => le_trans h1 h2⟩

/-- `multimap[k].sort()` — lexicographic sort of the encoded values
(Python list sort is stable; a stable structural sort models it). -/
def sortStrings (l : List String) : List String :=
  l.insertionSort (fun a b => a ≤ b)

/-- `sorted(multimap.items(), key=lambda kv: kv[0])`. -/
def sortItems (l : List (String × List String)) : List (String × List String) :=
  l.insertionSort keyLE

/-- The sorted canonical items of the query: drop `jwt`, group values by
encoded key, sort each value list, sort by key. -/
def canonicalItems (pairs : List (String × String)) : List (String × List String) :=
  sortItems ((buildMultimap (dropJwt pairs)).map (fun kv => (kv.1, sortStrings kv.2)))

/-- `canonical_query = "&".join(f"{k}={','.join(vs)}" for k, vs in items)`. -/
def canonicalQueryOf (pairs : List (String × String)) : String :=
  String.intercalate "&" ((canonicalItems pairs).map
    (fun kv => kv.1 ++ "=" ++ String.intercalate "," kv.2))

/-- Characters of a uri before the first `?` (query) or `#` (fragment),
as `urlsplit` keeps for scheme/netloc/path. -/
def takeUntilQF : List Char → List Char
  | [] => []
  | c :: cs => if c = '?' ∨ c = '#' then [] else c :: takeUntilQF cs

/-- Characters after the first `://` scheme separator, if any. -/
def afterSchemeSep : List Char → Option (List Char)
  | ':' :: '/' :: '/' :: rest => some rest
  | _ :: rest => afterSchemeSep rest
  | [] => none

/-- Skip the authority: the path starts at the first `/`. -/
def pathFromAuthority : List Char → List Char
  | [] => []
  | c :: cs => if c = '/' then c :: cs else pathFromAuthority cs

/-- `urlsplit(u).path`, for absolute (`scheme://host/path`) and relative
(`/path`) urls (the forms this service builds). -/
def uriPath (u : String) : String :=
  let cs := takeUntilQF u.toList
  match afterSchemeSep cs with
  | some rest => String.mk (pathFromAuthority rest)
  | none => String.mk cs

/-- Python `s.rstrip("/")`. -/
def rstripSlash (s : String) : String :=
  String.mk ((s.toList.reverse.dropWhile (fun c => c = '/')).reverse)

/-- Python `s.lstrip("/")`. -/
def lstripSlash (s : String) : String :=
  String.mk (s.toList.dropWhile (fun c => c = '/'))

/-! SHA-256 (`hashlib.sha256(...).hexdigest()`), over naturals reduced
mod `2 ^ 32`. -/

/-- `2 ^ 32`. -/
def M32 : Nat := 4294967296

/-- 32-bit rotate right. -/
def rotr32 (x n : Nat) : Nat := (x >>> n) ||| ((x <<< (32 - n)) % M32)

/-- 32-bit bitwise complement. -/
def not32 (x : Nat) : Nat := x ^^^ (M32 - 1)

/-- SHA-256 big sigma 0. -/
def bsig0 (x : Nat) : Nat := rotr32 x 2 ^^^ rotr32 x 13 ^^^ rotr32 x 22

/-- SHA-256 big sigma 1. -/
def bsig1 (x : Nat) : Nat := rotr32 x 6 ^^^ rotr32 x 11 ^^^ rotr32 x 25

/-- SHA-256 small sigma 0. -/
def ssig0 (x : Nat) : Nat := rotr32 x 7 ^^^ rotr32 x 18 ^^^ (x >>> 3)

/-- SHA-256 small sigma 1. -/
def ssig1 (x : Nat) : Nat := rotr32 x 17 ^^^ rotr32 x 19 ^^^ (x >>> 10)

/-- SHA-256 choice function. -/
def chFn (x y z : Nat) : Nat := (x &&& y) ^^^ (not32 x &&& z)

/-- SHA-256 majority function. -/
def majFn (x y z : Nat) : Nat := (x &&& y) ^^^ (x &&& z) ^^^ (y &&& z)

/-- SHA-256 round constants (fractional parts of the cube roots of the
first 64 primes), written in decimal. -/
def sha256K : List Nat :=
  [1116352408, 1899447441, 3049323471, 3921009573,
   961987163, 1508970993, 2453635748, 2870763221,
   3624381080, 310598401, 607225278, 1426881987,
   1925078388, 2162078206, 2614888103, 3248222580,
   3835390401, 4022224774, 264347078, 604807628,
   770255983, 1249150122, 1555081692, 1996064986,
   2554220882, 2821834349, 2952996808, 3210313671,
   3336571891, 3584528711, 113926993, 338241895,
   666307205, 773529912, 1294757372, 1396182291,
   1695183700, 1986661051, 2177026350, 2456956037,
   2730485921, 2820302411, 3259730800, 3345764771,
   3516065817, 3600352804, 4094571909, 275423344,
   430227734, 506948616, 659060556, 883997877,
   958139571, 1322822218, 1537002063, 1747873779,
   1955562222, 2024104815, 2227730452, 2361852424,
   2428436474, 2756734187, 3204031479, 3329325298]

/-- SHA-256 initial hash state (fractional parts of the square roots of
the first 8 primes), written in decimal. -/
def sha256InitH : List Nat :=
  [1779033703, 3144134277, 1013904242, 2773480762,
   1359893119, 2600822924, 528734635, 1541459225]

/-- One SHA-256 compression round on the state `[a,b,c,d,e,f,g,h]`. -/
def sha256Round (st : List Nat) (wi ki : Nat) : List Nat :=
  match st with
  | [a, b, c, d, e, f, g, h] =>
    let t1 := (h + bsig1 e + chFn e f g + ki + wi) % M32
    let t2 := (bsig0 a + majFn a b c) % M32
    [(t1 + t2) % M32, a, b, c, (d + t1) % M32, e, f, g]
  | _ => st

/-- Extend the 16 message words to 64 (`n` is the number of words to add). -/
def extendW : Nat → List Nat → List Nat
  | 0, w => w
  | n + 1, w =>
    let t := (ssig1 (w.getD (w.length - 2) 0) + w.getD (w.length - 7) 0 +
              ssig0 (w.getD (w.length - 15) 0) + w.getD (w.length - 16) 0) % M32
    extendW n (w ++ [t])

/-- Process one 16-word block. -/
def processBlock (h : List Nat) (block : List Nat) : List Nat :=
  let w := extendW 48 block
  let st := (w.zip sha256K).foldl (fun st p => sha256Round st p.1 p.2) h
  (h.zip st).map (fun p => (p.1 + p.2) % M32)

/-- Group bytes into big-endian 32-bit words. -/
def bytesToWords : List Nat → List Nat
  | b0 :: b1 :: b2 :: b3 :: rest =>
    (((b0 * 256 + b1) * 256 + b2) * 256 + b3) :: bytesToWords rest
  | _ => []

/-- Split a word list into blocks of 16. -/
def chunk16 : List Nat → List (List Nat)
  | [] => []
  | x :: xs => (x :: xs).take 16 :: chunk16 ((x :: xs).drop 16)
termination_by l => l.length
decreasing_by simp; omega

/-- 8-byte big-endian encoding of a length (in bits). -/
def be8 (n : Nat) : List Nat :=
  [n / 72057594037927936 % 256, n / 281474976710656 % 256,
   n / 1099511627776 % 256, n / 4294967296 % 256,
   n / 16777216 % 256, n / 65536 % 256, n / 256 % 256, n % 256]

/-- SHA-256 padding: `0x80`, zeros to 56 mod 64, 8-byte bit length. -/
def sha256Pad (bytes : List Nat) : List Nat :=
  let L := bytes.length
  let k := (119 - (L % 64)) % 64
  bytes ++ [128] ++ List.replicate k 0 ++ be8 (L * 8)

/-- A state word as 8 lowercase hex digits. -/
def hexWord (w : Nat) : String :=
  String.mk [hexDigitL (w / 268435456 % 16), hexDigitL (w / 16777216 % 16),
             hexDigitL (w / 1048576 % 16), hexDigitL (w / 65536 % 16),
             hexDigitL (w / 4096 % 16), hexDigitL (w / 256 % 16),
             hexDigitL (w / 16 % 16), hexDigitL (w % 16)]

/-- `hashlib.sha256(s.encode("utf-8")).hexdigest()`. -/
def sha256hex (s : String) : String :=
  String.join (((chunk16 (bytesToWords (sha256Pad (utf8Bytes s)))).foldl
    processBlock sha256InitH).map hexWord)

/-- `ZephyrAuthHelper.canonicalize`: returns
`(request_path, canonical_query, qsh)`.  The `pairs` argument is the
`parse_qsl` parse of the merged query string (uri-embedded query plus the
separately supplied parameters). -/
def canonicalize (base_url method uri : String) (pairs : List (String × String)) :
    String × String × String :=
  let methodU := pyUpper method
  let spPath := uriPath uri
  let path := if spPath = "" then uri else spPath
  let basePrefix := rstripSlash (uriPath base_url)
  let request_path :=
    if basePrefix ≠ "" ∧ ¬ pyStartsWith path basePrefix
    then basePrefix ++ "/" ++ lstripSlash path
    else path
  let qsh_path :=
    if basePrefix ≠ "" ∧ pyStartsWith request_path basePrefix
    then
      let q := pyDrop request_path basePrefix.length
      if ¬ pyStartsWith q "/" then "/" ++ q else q
    else request_path
  let canonical_query := canonicalQueryOf pairs
  let canonical_request := methodU ++ "&" ++ qsh_path ++ "&" ++ canonical_query
  (request_path, canonical_query, sha256hex canonical_request)

/-! ## `app/services/zephyr_service.py` — step creation and replacement

Logical remote requests (one per `_make_request` invocation; the
executor's internal retries of a single request are modelled separately
by `async_retry` above) are recorded in a trace. -/

/-- A caller-supplied step dict `{step, data, result}`; absent keys are
`none` (Python `dict.get` returns `None`). -/
structure StepInput where
  step : Option String
  data : Option String
  result : Option String
deriving DecidableEq, Repr

/-- The remote create payload built by `_add_single_step`. -/
structure StepPayload where
  step : String
  data : String
  result : Option String
deriving DecidableEq, Repr

/-- The remote response to a step create (`data.get("id")`,
`(data.get("teststep") or {}).get("id")`). -/
structure CreateResp where
  id : Option String
  teststepId : Option String
deriving DecidableEq, Repr

/-- A logical remote request issued by the service, plus the per-issue
lock acquisition of `update_test_steps` (`async with lock`). -/
inductive RCall where
  | lockAcquire (issueId : String)
  | getSteps
  | deleteStep (stepId : String)
  | createStep (p : StepPayload)
deriving DecidableEq, Repr

/-- The result dict of `add_test_steps`. -/
structure AddResult where
  steps_created : Nat
  created_ids : List String
  errors : List String
deriving DecidableEq, Repr

/-- `str(data.get("id") or "") or str((data.get("teststep") or {}).get("id") or "")`. -/
def newIdOf (resp : CreateResp) : String :=
  let a := resp.id.getD ""
  if a = "" then resp.teststepId.getD "" else a

/-- `_add_single_step`: build the payload (data defaults to `""`; the
expected result is kept only on the last step, else cleared to `""`),
reject empty step text without a remote call, otherwise issue one create
call whose outcome the oracle `createO` decides (`.error` is a raised
exception, message truncated to 300 characters). -/
def addSingleStep (createO : Nat → Except String CreateResp) (i : Nat) (isLast : Bool)
    (s : StepInput) : Except String String × List RCall :=
  let payload : StepPayload :=
    { step := pyStrip (s.step.getD "")
      data := s.data.getD ""
      result := if isLast then s.result else some "" }
  if payload.step = "" then (.error "Empty step text", [])
  else
    match createO i with
    | .ok resp => (.ok (newIdOf resp), [.createStep payload])
    | .error e => (.error (pyTake e 300), [.createStep payload])

/-- The `for i, step in enumerate(steps)` loop of `add_test_steps`:
`n` is `len(steps)`, `i` the index of the head of the remaining list.
Returns `(created_ids, errors, trace)`. -/
def addLoop (createO : Nat → Except String CreateResp) (n : Nat) :
    Nat → List StepInput → List String × List String × List RCall
  | _, [] => ([], [], [])
  | i, s :: rest =>
    let r := addSingleStep createO i (i = n - 1) s
    let acc := addLoop createO n (i + 1) rest
    match r.1 with
    | .ok id => (id :: acc.1, acc.2.1, r.2 ++ acc.2.2)
    | .error e => (acc.1, e :: acc.2.1, r.2 ++ acc.2.2)

/-- `add_test_steps`: empty input short-circuits, otherwise each step is
created sequentially, collecting ids and errors. -/
def add_test_steps (createO : Nat → Except String CreateResp) (steps : List StepInput) :
    AddResult × List RCall :=
  if steps = [] then ({ steps_created := 0, created_ids := [], errors := [] }, [])
  else
    let out := addLoop createO steps.length 0 steps
    ({ steps_created := out.1.length, created_ids := out.1, errors := out.2.1 }, out.2.2)

/-- A parsed remote test step, as far as the replacement workflow reads
it (only the `id` attribute is used). -/
structure ZStepResp where
  id : String
deriving DecidableEq, Repr

/-- Outcome of one `delete_test_step` call: success, `False` (the HTTP
error path inside `delete_test_step`), or a raised exception (for
example retry exhaustion inside `_make_request`). -/
inductive DelOutcome where
  | ok
  | retFalse
  | exn (msg : String)
deriving DecidableEq, Repr

/-- Environment of one `update_test_steps` invocation.  `fetch n` is the
outcome of the `n`-th `get_test_case` call (0 = snapshot, 1 = post-delete
verify, 2 = cleanup confirm); `get_test_case` swallows every exception
and returns `None`, modelled as `none`.  `del_ sid k` decides the `k`-th
(1-based) attempt of the bounded-concurrency snapshot delete of `sid`;
`delLeftover sid` decides the single sequential leftover delete of `sid`;
`create i` decides the create call of step `i`. -/
structure UpdEnv where
  fetch : Nat → Option (List ZStepResp)
  del_ : String → Nat → DelOutcome
  delLeftover : String → DelOutcome
  create : Nat → Except String CreateResp

/-- Snapshot id collection of `update_test_steps` step 1:
`if sid: sid = str(sid).strip(); if sid: append`. -/
def snapshotIds (steps : List ZStepResp) : List String :=
  steps.filterMap (fun s =>
    if s.id = "" then none
    else if pyStrip s.id = "" then none
    else some (pyStrip s.id))

/-- Leftover id collection of steps 3a/3b:
`[str(s.id).strip() for s in ... if getattr(s, "id", None)]`. -/
def leftoverIds (steps : List ZStepResp) : List String :=
  steps.filterMap (fun s => if s.id = "" then none else some (pyStrip s.id))

/-- `_delete_one`: up to 3 attempts, succeeding as soon as one attempt
returns `True`; both a `False` return and a raised exception lead to the
next attempt.  Returns the final boolean and the delete-call trace. -/
def deleteOne (env : UpdEnv) (sid : String) : Bool × List RCall :=
  match env.del_ sid 1 with
  | .ok => (true, [.deleteStep sid])
  | _ =>
    match env.del_ sid 2 with
    | .ok => (true, [.deleteStep sid, .deleteStep sid])
    | _ =>
      match env.del_ sid 3 with
      | .ok => (true, [.deleteStep sid, .deleteStep sid, .deleteStep sid])
      | _ => (false, [.deleteStep sid, .deleteStep sid, .deleteStep sid])

/-- The error string appended per ultimately-failed snapshot delete. -/
def delFailMsg : String := "Failed to delete a step (returned False after retries)"

/-- Abbreviated Python list repr used in the still-present warning. -/
def pyList (l : List String) : String :=
  "[" ++ String.intercalate ", " l ++ "]"

/-- Step 3 of `update_test_steps`: if the re-fetch shows leftovers,
delete them sequentially (collecting errors), then re-fetch once more and
append a warning if steps are still present.  Returns
`(extra deleted count, extra errors, trace)`; the confirm fetch happens
only in the leftover branch. -/
def leftoverPhase (env : UpdEnv) (issue_id : String) (leftovers : List String) :
    Nat × List String × List RCall :=
  if leftovers = [] then (0, [], [])
  else
    let seqRes := leftovers.map (fun sid => (sid, env.delLeftover sid))
    let d2 := seqRes.countP (fun p => p.2 = DelOutcome.ok)
    let e2 := seqRes.filterMap (fun p =>
      match p.2 with
      | .ok => none
      | .retFalse => some ("Failed to delete leftover step " ++ p.1)
      | .exn m => some ("Exception deleting leftover step " ++ p.1 ++ ": " ++ pyTake m 200))
    let still := leftoverIds ((env.fetch 2).getD [])
    let e3 := if still = [] then []
      else ["Steps still present after cleanup for issue " ++ issue_id ++ ": " ++ pyList still]
    (d2, e2 ++ e3, seqRes.map (fun p => RCall.deleteStep p.1) ++ [RCall.getSteps])

/-- The result dict of `update_test_steps`. -/
structure UpdResult where
  steps_deleted : Nat
  steps_created : Nat
  created_ids : List String
  errors : List String
deriving DecidableEq, Repr

/-- The locked body of `update_test_steps` (entered only for non-empty
`steps`): snapshot, bounded-concurrency delete of the snapshot (the
result list of `asyncio.gather` is in snapshot order), leftover
verify/cleanup, then recreate via `add_test_steps`. -/
def updCore (env : UpdEnv) (issue_id : String) (steps : List StepInput) :
    UpdResult × List RCall :=
  let existing := (env.fetch 0).getD []
  let snapIds := snapshotIds existing
  let delRes := snapIds.map (deleteOne env)
  let oks := delRes.map Prod.fst
  let deleted1 := oks.count true
  let errs1 := oks.filterMap (fun ok => if ok then none else some delFailMsg)
  let tr1 := (delRes.map Prod.snd).flatten
  let leftovers := leftoverIds ((env.fetch 1).getD [])
  let s2 := leftoverPhase env issue_id leftovers
  let addOut := add_test_steps env.create steps
  ({ steps_deleted := deleted1 + s2.1
     steps_created := addOut.1.steps_created
     created_ids := addOut.1.created_ids
     errors := errs1 ++ s2.2.1 ++ addOut.1.errors },
   [RCall.lockAcquire issue_id, RCall.getSteps] ++ tr1 ++ [RCall.getSteps] ++ s2.2.2 ++ addOut.2)

/-- `update_test_steps`: an empty `steps` list returns the zero result
before the per-issue lock is even looked up and before any remote call;
otherwise the locked body runs. -/
def update_test_steps (env : UpdEnv) (issue_id : String) (steps : List StepInput) :
    UpdResult × List RCall :=
  if steps = [] then
    ({ steps_deleted := 0, steps_created := 0, created_ids := [], errors := [] }, [])
  else updCore env issue_id steps

/-! ## Execution/cycle linkage (`add_test_to_cycle` and helpers) -/

/-- The remote response to an execution create
(`data.get("id")`, `(data.get("execution") or {}).get("id")`). -/
structure ExecCreateResp where
  id : Option String
  executionId : Option String
deriving DecidableEq, Repr

/-- How the creation call can fail: an `httpx.HTTPStatusError` carrying a
response body, or any other exception with its message. -/
inductive CreateExn where
  | httpStatus (body : String)
  | other (msg : String)
deriving DecidableEq, Repr

/-- One record of the executions listing, as `_find_execution` reads it:
the cycle id of the record (JSON number or string, both modelled by the
decimal string) and the execution id (`obj.get("id")`,
`obj.get("executionId")`). -/
structure ExecRecord where
  cycleId : Option String
  id : Option String
  executionId : Option String
deriving DecidableEq, Repr

/-- The result dict of `add_test_to_cycle`. -/
structure ExecResult where
  execution_id : Option String
  created : Bool
  error : Option String
deriving DecidableEq, Repr

/-- The lookup query string `_find_execution` builds: the
`issueId`/`projectId`/`cycleId` pairs, key-sorted and joined. -/
def findExecutionQs (issue_id : String) (project_id : String) (cycle_id : Option Int) : String :=
  let pairs := [("issueId", issue_id), ("projectId", project_id)] ++
    (match cycle_id with
     | some cid => [("cycleId", toString cid)]
     | none => [])
  String.intercalate "&" ((pairs.insertionSort (fun a b => a.1 ≤ b.1)).map
    (fun p => p.1 ++ "=" ++ p.2))

/-- The record scan of `_find_execution`: skip a record whose cycle id is
neither absent nor equal to the requested cycle (when one was requested);
return the first usable execution id (`obj.get("id") or
obj.get("executionId")`, Python-truthily), skipping records where it is
`None`. -/
def findExecScan (cycle_id : Option Int) : List ExecRecord → Option String
  | [] => none
  | r :: rest =>
    let skip :=
      match cycle_id with
      | none => false
      | some cid => ¬ (r.cycleId = none ∨ r.cycleId = some (toString cid))
    if skip then findExecScan cycle_id rest
    else
      match (if pyTruthy r.id then r.id else r.executionId) with
      | some eid => some eid
      | none => findExecScan cycle_id rest

/-- `_find_execution`: a failed listing request returns `None`
(the exception is caught and logged); otherwise scan the parsed records. -/
def find_execution (cycle_id : Option Int) (listReq : Except Unit (List ExecRecord)) :
    Option String :=
  match listReq with
  | .error _ => none
  | .ok records => findExecScan cycle_id records

/-- `_handle_existing_execution`: when the creation error body contains
`"already exist"` case-insensitively, fall back to `_find_execution`; a
truthy found id is returned as success with `created=False` and no error,
anything else degrades to the error result carrying the body (truncated
to 500 characters). -/
def handle_existing_execution (body : String) (cycle_id : Int)
    (listReq : Except Unit (List ExecRecord)) : ExecResult :=
  let errResult : ExecResult :=
    { execution_id := none, created := false, error := some (pyTake body 500) }
  if strContains (pyLower body) "already exist" then
    match find_execution (some cycle_id) listReq with
    | some eid => if eid ≠ "" then
        { execution_id := some eid, created := false, error := none }
      else errResult
    | none => errResult
  else errResult

/-- `add_test_to_cycle`: attempt the creation call; on success return the
extracted execution id with `created=True`; on an HTTP status error run
the already-exists fallback; on any other exception return the error
result. -/
def add_test_to_cycle (createReq : Except CreateExn ExecCreateResp) (cycle_id : Int)
    (listReq : Except Unit (List ExecRecord)) : ExecResult :=
  match createReq with
  | .ok data =>
    let execId := if pyTruthy data.id then data.id else data.executionId
    { execution_id := execId, created := true, error := none }
  | .error (.httpStatus body) => handle_existing_execution body cycle_id listReq
  | .error (.other msg) =>
    { execution_id := none, created := false, error := some msg }

/-! ## `app/routers/test_case.py` — bulk full-create fan-out -/

/-- The per-item body of the bulk request, as far as the fan-out touches
it (summary, plus the per-item version/cycle the top level can override). -/
structure FullCreateBody where
  summary : String
  version_id : Option Int
  cycle_id : Option Int
deriving DecidableEq, Repr

/-- The top-level override: a non-`None` payload `version_id`/`cycle_id`
replaces the per-item value. -/
def enforceItem (vid cid : Option Int) (tc : FullCreateBody) : FullCreateBody :=
  { tc with
    version_id := if vid.isSome then vid else tc.version_id
    cycle_id := if cid.isSome then cid else tc.cycle_id }

/-- One entry of the bulk result list (`BulkItemResult`); `result` is the
success payload of `_full_create_one`, `failure` the formatted error
message. -/
structure BulkItemResult (α : Type) where
  index : Nat
  input_summary : String
  success : Bool
  result : Option α
  failure : Option String
deriving DecidableEq, Repr

/-- The aggregate bulk response (`BulkFullCreateResponse`). -/
structure BulkResp (α : Type) where
  total : Nat
  succeeded : Nat
  failed : Nat
  results : List (BulkItemResult α)
deriving DecidableEq, Repr

/-- `run_one`: one item's workflow under the semaphore; the oracle
`run i tc` is the outcome of `_full_create_one` for item `i` (`.error`
covers both the `HTTPException` and the generic branch, whose only
difference is the message format). -/
def runOne (run : Nat → FullCreateBody → Except String α) (i : Nat) (tc : FullCreateBody) :
    BulkItemResult α :=
  match run i tc with
  | .ok r =>
    { index := i, input_summary := tc.summary, success := true,
      result := some r, failure := none }
  | .error e =>
    { index := i, input_summary := tc.summary, success := false,
      result := none, failure := some e }

/-- `create_bulk_test_cases`: enforce the top-level version/cycle on each
item, run all items (the result list of `asyncio.gather` over the
enumerated tasks is in input order), and aggregate the counts
(`failed = total - succeeded`). -/
def create_bulk_test_cases (payload_version_id payload_cycle_id : Option Int)
    (items : List FullCreateBody) (run : Nat → FullCreateBody → Except String α) :
    BulkResp α :=
  let enforced := items.map (enforceItem payload_version_id payload_cycle_id)
  let results := enforced.enum.map (fun p => runOne run p.1 p.2)
  let succeeded := results.countP (fun r => r.success)
  { total := items.length, succeeded := succeeded,
    failed := items.length - succeeded, results := results }

/-- Python `None` for a missing step dict (`dict.get` default). -/
def noStep : StepInput := { step := none, data := none, result := none }

/-- `(step.get("step") or "").strip()` — the step text as the payload
builder normalizes it. -/
def trimmedText (s : StepInput) : String := pyStrip (s.step.getD "")


/-- Default of `BulkItemResult` fields for out-of-range indexing in
statements. -/
def bulkDefault (α : Type) : BulkItemResult α :=
  { index := 0, input_summary := "", success := false, result := none, failure := none }

/-- Default of `FullCreateBody` for out-of-range indexing in statements. -/
def fcDefault : FullCreateBody := { summary := "", version_id := none, cycle_id := none }

/-! Concrete inputs used by the witnesses and the counterexample. -/

/-- A successful remote create response. -/
def okCreate : CreateResp := { id := some "101", teststepId := none }

/-- Environment in which every `get_test_case` fetch fails (returns
`None`), deletes succeed and creates succeed. -/
def c1Env : UpdEnv :=
  { fetch := fun _ => none, del_ := fun _ _ => .ok, delLeftover := fun _ => .ok,
    create := fun _ => .ok okCreate }

/-- One valid replacement step. -/
def c1Steps : List StepInput :=
  [{ step := some "press button", data := none, result := some "works" }]

/-- Three valid steps, each with a non-empty expected result. -/
def c3Steps : List StepInput :=
  [{ step := some "a", data := some "d1", result := some "r1" },
   { step := some "b", data := none, result := some "r2" },
   { step := some "c", data := some "d3", result := some "r3" }]

/-- A snapshot of five remote steps. -/
def c4Fetch0 : List ZStepResp := [⟨"1"⟩, ⟨"2"⟩, ⟨"3"⟩, ⟨"4"⟩, ⟨"5"⟩]

/-- Environment for the partial-failure scenario: the snapshot holds five
steps, every delete of steps 2 and 4 fails with `False`, the verify fetch
reports a clean slate, creates succeed. -/
def c4Env : UpdEnv :=
  { fetch := fun n => if n = 0 then some c4Fetch0 else some [],
    del_ := fun sid _ => if sid = "2" ∨ sid = "4" then .retFalse else .ok,
    delLeftover := fun _ => .ok,
    create := fun _ => .ok okCreate }

/-- A conflict response body from the remote system. -/
def c6Body : String := "Execution already exists for this test"

/-- An executions listing holding the sought execution in cycle 10. -/
def c6Records : List ExecRecord :=
  [{ cycleId := some "9", id := some "77", executionId := none },
   { cycleId := some "10", id := some "42", executionId := none }]

/-- Ten bulk items. -/
def c8Items : List FullCreateBody :=
  (List.range 10).map (fun i => { summary := toString i, version_id := none, cycle_id := none })

/-- Item 4 raises, everything else succeeds. -/
def c8Run : Nat → FullCreateBody → Except String String :=
  fun i _ => if i = 4 then .error "boom" else .ok "created"

/-- Proof-side reading of a multimap: the value list of the first entry
with the given key (empty when absent). -/
def lookupList : List (String × List String) → String → List String
  | [], _ => []
  | kv :: rest, k => if kv.1 = k then kv.2 else lookupList rest k

/-- Spec-side description of a key's grouped values: the encoded values
of the pairs whose encoded key is `k`, in input order. -/
def valuesOf (pairs : List (String × String)) (k : String) : List String :=
  pairs.filterMap (fun p => if pct_encode p.1 = k then some (pct_encode p.2) else none)

/-- The encoded keys of the pairs, in input order. -/
def encKeys (pairs : List (String × String)) : List String :=
  pairs.map (fun p => pct_encode p.1)

/-- Pairs for the order-invariance witness. -/
def c7Pairs1 : List (String × String) := [("b", "2"), ("a", "1"), ("a", "0")]

/-- A permutation of `c7Pairs1`. -/
def c7Pairs2 : List (String × String) := [("a", "0"), ("b", "2"), ("a", "1")]

/-! ## Theorems -/

/-- Claim C9: for every issue identifier and every environment, calling
`update_test_steps` with an empty list of new steps returns
`{steps_deleted: 0, steps_created: 0, created_ids: [], errors: []}` with
an empty call trace: the per-issue lock is never acquired, no remote
call is issued, and the remote step set is left untouched (the operation
cannot be used to clear all steps). -/
theorem claim_C9 (env : UpdEnv) (issue_id : String) :
    update_test_steps env issue_id [] =
      ({ steps_deleted := 0, steps_created := 0, created_ids := [], errors := [] }, []) :=
  rfl

/-- If every attempt raises the same retryable exception, the retry loop
makes one call per remaining attempt and finally re-raises it. -/
theorem retryGo_const_raised (f : Nat → Except PyExn α) (e : PyExn) (maxA : Nat)
    (he : is_retryable_exception e = true) (hf : ∀ n, f n = .error e) :
    ∀ k attempt calls, attempt + k = maxA → 1 ≤ attempt →
      retryGo f maxA attempt calls = (.raised e, calls + k + 1) := by
  intro k
  induction k with
  | zero =>
    intro attempt calls hak h1
    unfold retryGo
    rw [hf attempt]
    have hlt : ¬ maxA < attempt := by omega
    have heq : attempt = maxA := by omega
    simp [hlt, he, heq]
  | succ n ih =>
    intro attempt calls hak h1
    have hstep : retryGo f maxA attempt calls = retryGo f maxA (attempt + 1) (calls + 1) := by
      conv_lhs => rw [retryGo.eq_def]
      rw [hf attempt]
      have hlt : ¬ maxA < attempt := by omega
      have hne : ¬ attempt = maxA := by omega
      simp [hlt, he, hne]
    rw [hstep, ih (attempt + 1) (calls + 1) (by omega) (by omega),
      show calls + 1 + n + 1 = calls + (n + 1) + 1 from by omega]

/-- Claim C5: for the retry executor `async_retry`, a wrapped function
that fails with HTTP 503 on every attempt is called exactly
`maxAttempts` times and the last exception is then raised, while a
wrapped function whose first attempt fails with HTTP 400 is called
exactly once and the exception propagates immediately. -/
theorem claim_C5 {α : Type} (maxA : Nat) (f g : Nat → Except PyExn α) (b₁ b₂ : String)
    (hmax : 1 ≤ maxA)
    (hf : ∀ n, f n = .error (.httpStatus 503 b₁))
    (hg : g 1 = .error (.httpStatus 400 b₂)) :
    async_retry f maxA = (.raised (.httpStatus 503 b₁), maxA) ∧
    async_retry g maxA = (.raised (.httpStatus 400 b₂), 1) := by
  constructor
  · have h := retryGo_const_raised f (.httpStatus 503 b₁) maxA
      (by exact (by decide : RETRYABLE_STATUS_CODES.contains 503 = true)) hf
      (maxA - 1) 1 0 (by omega) (by omega)
    rw [show async_retry f maxA = retryGo f maxA 1 0 from rfl, h,
      show 0 + (maxA - 1) + 1 = maxA from by omega]
  · rw [show async_retry g maxA = retryGo g maxA 1 0 from rfl]
    unfold retryGo
    rw [hg]
    have hlt : ¬ maxA < 1 := by omega
    have hnr : is_retryable_exception (.httpStatus 400 b₂) = false :=
      (by decide : RETRYABLE_STATUS_CODES.contains 400 = false)
    simp [hlt, hnr]

/-- Witness for C5 at `maxAttempts = 3`. -/
theorem claim_C5_witness :
    1 ≤ 3 ∧
    async_retry (fun _ => (.error (.httpStatus 503 "service unavailable") : Except PyExn Unit)) 3 =
      (.raised (.httpStatus 503 "service unavailable"), 3) ∧
    async_retry (fun _ => (.error (.httpStatus 400 "bad request") : Except PyExn Unit)) 3 =
      (.raised (.httpStatus 400 "bad request"), 1) :=
  ⟨by decide,
   claim_C5 3 (fun _ => .error (.httpStatus 503 "service unavailable"))
     (fun _ => .error (.httpStatus 400 "bad request"))
     "service unavailable" "bad request" (by decide) (fun _ => rfl) rfl⟩



theorem addLoop_ids (createO : Nat → Except String CreateResp) (n : Nat) :
    ∀ (l : List StepInput) (i : Nat),
      (addLoop createO n i l).1 = (l.enumFrom i).filterMap (fun p =>
        match (addSingleStep createO p.1 (p.1 = n - 1) p.2).1 with
        | .ok id => some id
        | .error _ => none) := by
  intro l
  induction l with
  | nil => intro i; simp [addLoop]
  | cons s rest ih =>
    intro i
    rw [addLoop, List.enumFrom_cons, List.filterMap_cons, ← ih (i + 1)]
    cases h : (addSingleStep createO i (i = n - 1) s).1 <;> simp [h]

theorem addLoop_count (createO : Nat → Except String CreateResp) (n : Nat) :
    ∀ (l : List StepInput) (i : Nat),
      (addLoop createO n i l).1.length + (addLoop createO n i l).2.1.length = l.length := by
  intro l
  induction l with
  | nil => intro i; simp [addLoop]
  | cons s rest ih =>
    intro i
    rw [addLoop]
    cases h : (addSingleStep createO i (i = n - 1) s).1 <;>
      simp [h] <;> have := ih (i + 1) <;> omega

theorem addLoop_trace (createO : Nat → Except String CreateResp) (n : Nat) :
    ∀ (l : List StepInput) (i : Nat),
      (addLoop createO n i l).2.2 = (l.enumFrom i).filterMap (fun p =>
        if trimmedText p.2 = "" then none
        else some (RCall.createStep
          { step := trimmedText p.2, data := p.2.data.getD "",
            result := if p.1 = n - 1 then p.2.result else some "" })) := by
  intro l
  induction l with
  | nil => intro i; simp [addLoop]
  | cons s rest ih =>
    intro i
    rw [addLoop, List.enumFrom_cons, List.filterMap_cons, ← ih (i + 1)]
    by_cases ht : trimmedText s = ""
    · have hs : addSingleStep createO i (i = n - 1) s = (.error "Empty step text", []) := by
        rw [addSingleStep]
        simp only [trimmedText] at ht
        simp [ht]
      simp [hs, ht]
    · have hs2 : (addSingleStep createO i (i = n - 1) s).2 =
          [RCall.createStep
            { step := trimmedText s, data := s.data.getD "",
              result := if (i = n - 1) then s.result else some "" }] := by
        rw [addSingleStep]
        simp only [trimmedText] at ht ⊢
        simp only [ht, if_neg ht]
        cases createO i <;> simp
      cases h : (addSingleStep createO i (i = n - 1) s).1 <;> simp [h, hs2, ht]

theorem addLoop_empty_err (createO : Nat → Except String CreateResp) (n : Nat) :
    ∀ (l : List StepInput) (i : Nat) (s : StepInput), s ∈ l → trimmedText s = "" →
      "Empty step text" ∈ (addLoop createO n i l).2.1 := by
  intro l
  induction l with
  | nil => intro i s hs; simp at hs
  | cons a rest ih =>
    intro i s hs ht
    rw [addLoop]
    rcases List.mem_cons.mp hs with h | h
    · subst h
      have ha : addSingleStep createO i (i = n - 1) s = (.error "Empty step text", []) := by
        rw [addSingleStep]
        simp only [trimmedText] at ht
        simp [ht]
      simp [ha]
    · have := ih (i + 1) s h ht
      cases hh : (addSingleStep createO i (i = n - 1) a).1 <;> simp [hh, this]

end TestGenie

namespace TestGenie

/-- Claim C10: for every input list of steps, `add_test_steps` satisfies
the accounting invariant: `steps_created` equals the length of
`created_ids`; each input step contributes exactly one created id or
exactly one error, so `created_ids` and `errors` together account for
every input step; `created_ids` lists, in input order, exactly the
outcome of each position's create; the trace holds one create call per
step with non-empty stripped text; and a step whose text is empty after
stripping contributes the error `"Empty step text"` (without a remote
call, per the trace equation). -/
theorem claim_C10 (createO : Nat → Except String CreateResp) (steps : List StepInput) :
    (add_test_steps createO steps).1.steps_created =
      (add_test_steps createO steps).1.created_ids.length ∧
    (add_test_steps createO steps).1.created_ids.length +
      (add_test_steps createO steps).1.errors.length = steps.length ∧
    (add_test_steps createO steps).1.created_ids = steps.enum.filterMap (fun p =>
      match (addSingleStep createO p.1 (p.1 = steps.length - 1) p.2).1 with
      | .ok id => some id
      | .error _ => none) ∧
    (∀ s ∈ steps, trimmedText s = "" →
      "Empty step text" ∈ (add_test_steps createO steps).1.errors) := by
  by_cases h : steps = []
  · subst h
    simp [add_test_steps]
  · have he : add_test_steps createO steps =
        ({ steps_created := (addLoop createO steps.length 0 steps).1.length,
           created_ids := (addLoop createO steps.length 0 steps).1,
           errors := (addLoop createO steps.length 0 steps).2.1 },
         (addLoop createO steps.length 0 steps).2.2) := by
      simp only [add_test_steps, if_neg h]
    rw [he]
    refine ⟨rfl, addLoop_count createO steps.length steps 0, ?_, ?_⟩
    · rw [List.enum_eq_enumFrom]
      exact addLoop_ids createO steps.length steps 0
    · intro s hs ht
      exact addLoop_empty_err createO steps.length steps 0 s hs ht

/-- Claim C3: for every non-empty input to `add_test_steps`, the issued
create payloads carry the caller's expected-result text only at the final
position; every non-final step is sent with its result cleared to `""`,
even when the caller supplied a non-empty result there.  The first
conjunct characterizes the full create trace; the second states that
every issued payload's result is either `""` or the final step's
caller-supplied result. -/
theorem claim_C3 (createO : Nat → Except String CreateResp) (steps : List StepInput)
    (h : steps ≠ []) :
    (add_test_steps createO steps).2 = steps.enum.filterMap (fun p =>
      if trimmedText p.2 = "" then none
      else some (RCall.createStep
        { step := trimmedText p.2, data := p.2.data.getD "",
          result := if p.1 = steps.length - 1 then p.2.result else some "" })) ∧
    (∀ q, RCall.createStep q ∈ (add_test_steps createO steps).2 →
      q.result = some "" ∨ q.result = (steps.getD (steps.length - 1) noStep).result) := by
  have htr : (add_test_steps createO steps).2 = steps.enum.filterMap (fun p =>
      if trimmedText p.2 = "" then none
      else some (RCall.createStep
        { step := trimmedText p.2, data := p.2.data.getD "",
          result := if p.1 = steps.length - 1 then p.2.result else some "" })) := by
    simp only [add_test_steps, if_neg h]
    rw [List.enum_eq_enumFrom]
    exact addLoop_trace createO steps.length steps 0
  refine ⟨htr, ?_⟩
  intro q hq
  rw [htr] at hq
  rcases List.mem_filterMap.mp hq with ⟨p, hp, hfp⟩
  by_cases ht : trimmedText p.2 = ""
  · rw [if_pos ht] at hfp
    exact absurd hfp (by simp)
  · rw [if_neg ht, Option.some_inj] at hfp
    injection hfp with hA
    by_cases hlast : p.1 = steps.length - 1
    · right
      have hget : steps[p.1]? = some p.2 := List.mem_enum_iff_getElem?.mp hp
      have hgd : steps.getD (steps.length - 1) noStep = p.2 := by
        rw [List.getD_eq_getElem?_getD, ← hlast, hget]
        rfl
      rw [← hA, hgd]
      simp [hlast]
    · left
      rw [← hA]
      simp [hlast]


/-- Claim C6: whenever the execution create call of `add_test_to_cycle`
fails with an HTTP error whose body contains `"already exist"`
case-insensitively, the operation falls back to the lookup
(`_find_execution`, whose request is filtered by issueId/projectId/cycleId
— see `findExecutionQs` — and whose scan keeps only records matching the
requested cycle) and, when a match with a truthy id is found, returns that
existing execution id with `created = false` and a `None` error. -/
theorem claim_C6 (body : String) (cycle_id : Int) (records : List ExecRecord) (eid : String)
    (hbody : strContains (pyLower body) "already exist" = true)
    (hfind : find_execution (some cycle_id) (.ok records) = some eid)
    (heid : eid ≠ "") :
    add_test_to_cycle (.error (.httpStatus body)) cycle_id (.ok records) =
      { execution_id := some eid, created := false, error := none } ∧
    (∀ issue proj : String, findExecutionQs issue proj (some cycle_id) =
      "cycleId=" ++ toString cycle_id ++ "&" ++ ("issueId=" ++ issue) ++ "&" ++
        ("projectId=" ++ proj)) := by
  constructor
  · simp only [add_test_to_cycle, handle_existing_execution, hbody, if_true, hfind]
    simp [heid]
  · intro issue proj
    simp [findExecutionQs, List.insertionSort, List.orderedInsert, String.intercalate]
    rfl

theorem boolMapCount {α : Type} (f : α → Bool) :
    ∀ ids : List α,
      (ids.map f).count true + (ids.filter (fun x => ! f x)).length = ids.length := by
  intro ids
  induction ids with
  | nil => rfl
  | cons a rest ih =>
    cases h : f a <;> simp [List.count_cons, h, List.filter_cons] <;> omega

theorem boolMapErrLen {α : Type} (f : α → Bool) (m : String) :
    ∀ ids : List α,
      ((ids.map f).filterMap (fun ok => if ok then none else some m)).length =
        (ids.filter (fun x => ! f x)).length := by
  intro ids
  induction ids with
  | nil => rfl
  | cons a rest ih =>
    cases h : f a
    all_goals rw [List.map_cons, List.filterMap_cons, List.filter_cons, h]
    all_goals simp [← List.filterMap_map, ih]

theorem addLoop_all_ok (createO : Nat → Except String CreateResp) (n : Nat)
    (hcreate : ∀ j, ∃ r, createO j = Except.ok r) :
    ∀ (l : List StepInput) (i : Nat), (∀ s ∈ l, trimmedText s ≠ "") →
      (addLoop createO n i l).2.1 = [] ∧ (addLoop createO n i l).1.length = l.length := by
  intro l
  induction l with
  | nil => intro i _; simp [addLoop]
  | cons s rest ih =>
    intro i htext
    have hs : trimmedText s ≠ "" := htext s (List.mem_cons_self s rest)
    rcases hcreate i with ⟨r, hr⟩
    have hstep : (addSingleStep createO i (i = n - 1) s).1 = .ok (newIdOf r) := by
      rw [addSingleStep]
      simp only [trimmedText] at hs
      simp [hs, hr]
    rw [addLoop]
    rcases ih (i + 1) (fun a ha => htext a (List.mem_cons_of_mem s ha)) with ⟨h1, h2⟩
    simp [hstep, h1, h2]

/-- Claim C4: in the step replacement workflow, when the snapshot holds 5
steps and exactly 2 of the deletes ultimately fail after their private
retries (and the verify fetch then reports a clean slate, as in the
simulated scenario), the result reports `steps_deleted = 3` and exactly 2
error entries, and the new steps are still all created rather than the
workflow aborting. -/
theorem claim_C4 (env : UpdEnv) (issue_id : String) (steps : List StepInput)
    (ex : List ZStepResp)
    (hsteps : steps ≠ [])
    (hf0 : env.fetch 0 = some ex)
    (h5 : (snapshotIds ex).length = 5)
    (hfail : ((snapshotIds ex).filter (fun sid => ! (deleteOne env sid).1)).length = 2)
    (hf1 : env.fetch 1 = some [])
    (hcreate : ∀ j, ∃ r, env.create j = Except.ok r)
    (htext : ∀ s ∈ steps, trimmedText s ≠ "") :
    (update_test_steps env issue_id steps).1.steps_deleted = 3 ∧
    (update_test_steps env issue_id steps).1.errors.length = 2 ∧
    (update_test_steps env issue_id steps).1.steps_created = steps.length := by
  have hadd := addLoop_all_ok env.create steps.length hcreate steps 0 htext
  have he : add_test_steps env.create steps =
      ({ steps_created := (addLoop env.create steps.length 0 steps).1.length,
         created_ids := (addLoop env.create steps.length 0 steps).1,
         errors := (addLoop env.create steps.length 0 steps).2.1 },
       (addLoop env.create steps.length 0 steps).2.2) := by
    simp only [add_test_steps, if_neg hsteps]
  have hupd : update_test_steps env issue_id steps = updCore env issue_id steps := by
    simp [update_test_steps, hsteps]
  rw [hupd]
  simp only [updCore, hf0, hf1, Option.getD_some, he]
  have hlp1 : (leftoverPhase env issue_id (leftoverIds [])).1 = 0 := rfl
  have hlp2 : (leftoverPhase env issue_id (leftoverIds [])).2.1 = [] := rfl
  rw [hlp1, hlp2]
  have hmm : List.map Prod.fst (List.map (deleteOne env) (snapshotIds ex)) =
      List.map (fun sid => (deleteOne env sid).1) (snapshotIds ex) := by
    rw [List.map_map]
    rfl
  rw [hmm]
  have hcnt := boolMapCount (fun sid => (deleteOne env sid).1) (snapshotIds ex)
  have herr := boolMapErrLen (fun sid => (deleteOne env sid).1) delFailMsg (snapshotIds ex)
  refine ⟨?_, ?_, hadd.2⟩
  · omega
  · rw [hadd.1, List.append_nil, List.append_nil, herr, hfail]

/-- Claim C1, counterexample: in an environment where the snapshot fetch
fails (`get_test_case` swallows the exception and returns `None`),
`update_test_steps` does NOT abort: it still issues a create call and
creates the new step, contradicting the claim that no create call is
issued and no steps are added. -/
theorem claim_C1_counterexample :
    (update_test_steps c1Env "TC-1" c1Steps).1.steps_created = 1 ∧
    RCall.createStep { step := "press button", data := "", result := some "works" }
      ∈ (update_test_steps c1Env "TC-1" c1Steps).2 := by
  decide

/-- Claim C1, amended: when the snapshot fetch fails (and, to pin the
verify phase, the post-delete fetch fails too), the workflow issues no
delete call — the swallowed failure yields an empty snapshot — but it
does not abort: it proceeds to the creation phase, whose calls and
results it returns unchanged, with `steps_deleted = 0`. -/
theorem claim_C1_amended (env : UpdEnv) (issue_id : String) (steps : List StepInput)
    (hsteps : steps ≠ []) (h0 : env.fetch 0 = none) (h1 : env.fetch 1 = none) :
    (update_test_steps env issue_id steps).1 =
      { steps_deleted := 0,
        steps_created := (add_test_steps env.create steps).1.steps_created,
        created_ids := (add_test_steps env.create steps).1.created_ids,
        errors := (add_test_steps env.create steps).1.errors } ∧
    (update_test_steps env issue_id steps).2 =
      [RCall.lockAcquire issue_id, RCall.getSteps, RCall.getSteps] ++
        (add_test_steps env.create steps).2 := by
  have hupd : update_test_steps env issue_id steps = updCore env issue_id steps := by
    simp [update_test_steps, hsteps]
  rw [hupd]
  simp only [updCore, h0, h1, Option.getD_none]
  constructor
  · simp [snapshotIds, leftoverIds, leftoverPhase]
  · simp [snapshotIds, leftoverIds, leftoverPhase]

/-- Witness for the amended C1 at a concrete failing-fetch environment. -/
theorem claim_C1_amended_witness :
    (c1Steps ≠ [] ∧ c1Env.fetch 0 = none ∧ c1Env.fetch 1 = none) ∧
    (update_test_steps c1Env "TC-1" c1Steps).1 =
      { steps_deleted := 0,
        steps_created := (add_test_steps c1Env.create c1Steps).1.steps_created,
        created_ids := (add_test_steps c1Env.create c1Steps).1.created_ids,
        errors := (add_test_steps c1Env.create c1Steps).1.errors } ∧
    (update_test_steps c1Env "TC-1" c1Steps).2 =
      [RCall.lockAcquire "TC-1", RCall.getSteps, RCall.getSteps] ++
        (add_test_steps c1Env.create c1Steps).2 :=
  ⟨⟨by decide, rfl, rfl⟩, claim_C1_amended c1Env "TC-1" c1Steps (by decide) rfl rfl⟩

theorem runOne_success (run : Nat → FullCreateBody → Except String α) (i : Nat)
    (tc : FullCreateBody) : (runOne run i tc).success = (run i tc).isOk := by
  cases h : run i tc <;> simp [runOne, h, Except.isOk, Except.toBool]

theorem runOne_index (run : Nat → FullCreateBody → Except String α) (i : Nat)
    (tc : FullCreateBody) : (runOne run i tc).index = i := by
  cases h : run i tc <;> simp [runOne, h]

/-- Claim C8: for every bulk full-create batch, the result list has one
record per item at the item's original input index; `succeeded + failed`
equals the batch size; `succeeded` counts exactly the items whose own
workflow succeeded; and each record's success is decided by that item's
own outcome alone, so one item's exception becomes a failure record for
that item without affecting any sibling. -/
theorem claim_C8 {α : Type} (vid cid : Option Int) (items : List FullCreateBody)
    (run : Nat → FullCreateBody → Except String α) :
    (create_bulk_test_cases vid cid items run).results.length = items.length ∧
    (create_bulk_test_cases vid cid items run).total = items.length ∧
    (create_bulk_test_cases vid cid items run).succeeded +
      (create_bulk_test_cases vid cid items run).failed = items.length ∧
    (create_bulk_test_cases vid cid items run).succeeded =
      (items.map (enforceItem vid cid)).enum.countP (fun p => (run p.1 p.2).isOk) ∧
    (∀ j, j < items.length →
      ((create_bulk_test_cases vid cid items run).results.getD j (bulkDefault α)).index = j ∧
      ((create_bulk_test_cases vid cid items run).results.getD j (bulkDefault α)).success =
        (run j (enforceItem vid cid (items.getD j fcDefault))).isOk) := by
  have hlen : (create_bulk_test_cases vid cid items run).results.length = items.length := by
    simp [create_bulk_test_cases]
  refine ⟨hlen, rfl, ?_, ?_, ?_⟩
  · have hle : (create_bulk_test_cases vid cid items run).succeeded ≤ items.length := by
      have := List.countP_le_length (fun r => r.success)
        (l := (create_bulk_test_cases vid cid items run).results)
      rw [hlen] at this
      exact this
    have hfa : (create_bulk_test_cases vid cid items run).failed =
        items.length - (create_bulk_test_cases vid cid items run).succeeded := rfl
    omega
  · show ((items.map (enforceItem vid cid)).enum.map (fun p => runOne run p.1 p.2)).countP
      (fun r => r.success) = _
    rw [List.countP_map]
    refine List.countP_congr ?_
    intro p _
    simp only [Function.comp]
    rw [runOne_success run p.1 p.2]
  · intro j hj
    have hget : (create_bulk_test_cases vid cid items run).results.getD j (bulkDefault α) =
        runOne run j (enforceItem vid cid (items.getD j fcDefault)) := by
      rw [List.getD_eq_getElem?_getD]
      simp only [create_bulk_test_cases, List.getElem?_map, List.getElem?_enum]
      rw [List.getElem?_eq_getElem (by simpa using hj)]
      simp [List.getD_eq_getElem?_getD, List.getElem?_eq_getElem hj]
    rw [hget]
    exact ⟨runOne_index run j _, runOne_success run j _⟩

/-- Witness for C8: batch of 10 where item 4 raises — `succeeded = 9`,
`failed = 1`, and item 4 sits at index 4. -/
theorem claim_C8_witness :
    4 < c8Items.length ∧
    ((create_bulk_test_cases none none c8Items c8Run).results.getD 4 (bulkDefault String)).index = 4 ∧
    (create_bulk_test_cases none none c8Items c8Run).succeeded +
      (create_bulk_test_cases none none c8Items c8Run).failed = c8Items.length ∧
    (create_bulk_test_cases none none c8Items c8Run).succeeded = 9 :=
  ⟨by decide,
   ((claim_C8 none none c8Items c8Run).2.2.2.2 4 (by decide)).1,
   (claim_C8 none none c8Items c8Run).2.2.1,
   by rw [(claim_C8 none none c8Items c8Run).2.2.2.1]; decide⟩

/-- Witness for C3 on three steps each carrying a non-empty result. -/
theorem claim_C3_witness :
    c3Steps ≠ [] ∧
    (add_test_steps (fun _ => .ok okCreate) c3Steps).2 = c3Steps.enum.filterMap (fun p =>
      if trimmedText p.2 = "" then none
      else some (RCall.createStep
        { step := trimmedText p.2, data := p.2.data.getD "",
          result := if p.1 = c3Steps.length - 1 then p.2.result else some "" })) :=
  ⟨by decide, (claim_C3 (fun _ => .ok okCreate) c3Steps (by decide)).1⟩

/-- Witness for C10: the accounting invariant at a concrete input. -/
theorem claim_C10_witness :
    (add_test_steps (fun _ => .ok okCreate) c3Steps).1.created_ids.length +
      (add_test_steps (fun _ => .ok okCreate) c3Steps).1.errors.length = c3Steps.length :=
  (claim_C10 (fun _ => .ok okCreate) c3Steps).2.1

/-- Witness for C6: the second create for (issue, cycle 10) is rejected
with an already-exists body and resolves to the existing execution 42. -/
theorem claim_C6_witness :
    (strContains (pyLower c6Body) "already exist" = true ∧
     find_execution (some 10) (.ok c6Records) = some "42" ∧ "42" ≠ "") ∧
    add_test_to_cycle (.error (.httpStatus c6Body)) 10 (.ok c6Records) =
      { execution_id := some "42", created := false, error := none } :=
  ⟨⟨by decide, by decide, by decide⟩,
   (claim_C6 c6Body 10 c6Records "42" (by decide) (by decide) (by decide)).1⟩

/-- Witness for C4: five snapshot steps, deletes of steps 2 and 4 fail. -/
theorem claim_C4_witness :
    (c3Steps ≠ [] ∧ c4Env.fetch 0 = some c4Fetch0 ∧ (snapshotIds c4Fetch0).length = 5 ∧
      ((snapshotIds c4Fetch0).filter (fun sid => ! (deleteOne c4Env sid).1)).length = 2 ∧
      c4Env.fetch 1 = some []) ∧
    (update_test_steps c4Env "TC-2" c3Steps).1.steps_deleted = 3 ∧
    (update_test_steps c4Env "TC-2" c3Steps).1.errors.length = 2 ∧
    (update_test_steps c4Env "TC-2" c3Steps).1.steps_created = c3Steps.length :=
  ⟨⟨by decide, by decide, by decide, by decide, by decide⟩,
   claim_C4 c4Env "TC-2" c3Steps c4Fetch0 (by decide) (by decide) (by decide) (by decide)
     (by decide) (fun _ => ⟨okCreate, rfl⟩) (by decide)⟩


theorem lookup_addToMultimap (k0 : String) (v : String) :
    ∀ (m : List (String × List String)) (k : String),
      lookupList (addToMultimap m k0 v) k =
        lookupList m k ++ (if k = k0 then [v] else []) := by
  intro m
  induction m with
  | nil =>
    intro k
    by_cases h : k0 = k
    · simp [addToMultimap, lookupList, h]
    · simp [addToMultimap, lookupList, h, Ne.symm h]
  | cons kv rest ih =>
    intro k
    by_cases h1 : kv.1 = k0
    · rw [show addToMultimap (kv :: rest) k0 v = (kv.1, kv.2 ++ [v]) :: rest from by
        rw [addToMultimap.eq_def]
        simp [h1]]
      by_cases h2 : kv.1 = k
      · simp [lookupList, h2, h1.symm.trans h2 |>.symm]
      · simp only [lookupList, if_neg h2]
        rw [if_neg (fun hk => h2 (by rw [hk, ← h1]))]
        simp
    · rw [show addToMultimap (kv :: rest) k0 v = kv :: addToMultimap rest k0 v from by
        rw [addToMultimap.eq_def]
        simp [h1]]
      by_cases h2 : kv.1 = k
      · simp only [lookupList, if_pos h2]
        rw [if_neg (fun hk => h1 (by rw [h2, hk]))]
        simp
      · simp only [lookupList, if_neg h2]
        exact ih k

theorem keys_addToMultimap (k0 : String) (v : String) :
    ∀ m : List (String × List String),
      (addToMultimap m k0 v).map Prod.fst =
        if k0 ∈ m.map Prod.fst then m.map Prod.fst else m.map Prod.fst ++ [k0] := by
  intro m
  induction m with
  | nil => simp [addToMultimap]
  | cons kv rest ih =>
    by_cases h1 : kv.1 = k0
    · rw [show addToMultimap (kv :: rest) k0 v = (kv.1, kv.2 ++ [v]) :: rest from by
        rw [addToMultimap.eq_def]
        simp [h1]]
      simp [h1]
    · rw [show addToMultimap (kv :: rest) k0 v = kv :: addToMultimap rest k0 v from by
        rw [addToMultimap.eq_def]
        simp [h1]]
      by_cases h2 : k0 ∈ rest.map Prod.fst
      · simp [ih, h2, Ne.symm h1]
      · simp [ih, h2, Ne.symm h1]

theorem lookup_buildFold (ps : List (String × String)) :
    ∀ (m : List (String × List String)) (k : String),
      lookupList (ps.foldl (fun m p => addToMultimap m (pct_encode p.1) (pct_encode p.2)) m) k =
        lookupList m k ++ valuesOf ps k := by
  induction ps with
  | nil => intro m k; simp [valuesOf]
  | cons p rest ih =>
    intro m k
    rw [List.foldl_cons, ih, lookup_addToMultimap]
    rw [show valuesOf (p :: rest) k =
        (if pct_encode p.1 = k then [pct_encode p.2] else []) ++ valuesOf rest k from by
      by_cases hk : pct_encode p.1 = k
      · simp [valuesOf, hk]
      · simp [valuesOf, hk]]
    by_cases hk : pct_encode p.1 = k
    · rw [if_pos hk, if_pos hk.symm]
      simp
    · rw [if_neg hk, if_neg (fun hh => hk hh.symm)]
      simp

theorem mem_keys_buildFold (ps : List (String × String)) :
    ∀ (m : List (String × List String)) (k : String),
      (k ∈ (ps.foldl (fun m p => addToMultimap m (pct_encode p.1) (pct_encode p.2)) m).map
          Prod.fst) ↔ k ∈ m.map Prod.fst ∨ k ∈ encKeys ps := by
  induction ps with
  | nil => intro m k; simp [encKeys]
  | cons p rest ih =>
    intro m k
    rw [List.foldl_cons, ih,
      show encKeys (p :: rest) = pct_encode p.1 :: encKeys rest from rfl,
      List.mem_cons, keys_addToMultimap]
    by_cases hm : pct_encode p.1 ∈ m.map Prod.fst
    · rw [if_pos hm]
      constructor
      · intro h
        tauto
      · rintro (h | h | h)
        · exact Or.inl h
        · exact Or.inl (h ▸ hm)
        · exact Or.inr h
    · rw [if_neg hm, List.mem_append, List.mem_singleton]
      tauto

theorem nodup_keys_buildFold (ps : List (String × String)) :
    ∀ m : List (String × List String), (m.map Prod.fst).Nodup →
      ((ps.foldl (fun m p => addToMultimap m (pct_encode p.1) (pct_encode p.2)) m).map
        Prod.fst).Nodup := by
  induction ps with
  | nil => intro m hm; simpa using hm
  | cons p rest ih =>
    intro m hm
    rw [List.foldl_cons]
    refine ih _ ?_
    rw [keys_addToMultimap]
    by_cases hmem : pct_encode p.1 ∈ m.map Prod.fst
    · rw [if_pos hmem]
      exact hm
    · rw [if_neg hmem, List.nodup_append]
      refine ⟨hm, List.nodup_singleton _, fun a ha hb => ?_⟩
      rw [List.mem_singleton] at hb
      exact hmem (hb ▸ ha)

theorem lookup_self :
    ∀ m : List (String × List String), (m.map Prod.fst).Nodup →
      ∀ kv ∈ m, lookupList m kv.1 = kv.2 := by
  intro m
  induction m with
  | nil => intro _ kv hkv; simp at hkv
  | cons a rest ih =>
    intro hm kv hkv
    rw [List.map_cons, List.nodup_cons] at hm
    rcases List.mem_cons.mp hkv with h | h
    · subst h
      simp [lookupList]
    · have hne : a.1 ≠ kv.1 := by
        intro he
        exact hm.1 (he ▸ List.mem_map_of_mem Prod.fst h)
      rw [lookupList, if_neg hne]
      exact ih hm.2 kv h

theorem sortStrings_perm_eq {l₁ l₂ : List String} (h : l₁.Perm l₂) :
    sortStrings l₁ = sortStrings l₂ := by
  have hs1 : List.Sorted (fun a b : String => a ≤ b) (sortStrings l₁) :=
    List.sorted_insertionSort _ l₁
  have hs2 : List.Sorted (fun a b : String => a ≤ b) (sortStrings l₂) :=
    List.sorted_insertionSort _ l₂
  exact List.eq_of_perm_of_sorted
    (((List.perm_insertionSort _ l₁).trans h).trans (List.perm_insertionSort _ l₂).symm)
    hs1 hs2

theorem eq_of_perm_keysorted :
    ∀ (l₁ l₂ : List (String × List String)), l₁.Perm l₂ →
      l₁.Pairwise keyLE → l₂.Pairwise keyLE → (l₁.map Prod.fst).Nodup → l₁ = l₂ := by
  intro l₁
  induction l₁ with
  | nil =>
    intro l₂ hp _ _ _
    exact List.Perm.nil_eq hp
  | cons a t₁ ih =>
    intro l₂ hp hs₁ hs₂ hn₁
    have hn₂ : (l₂.map Prod.fst).Nodup := (hp.map Prod.fst).nodup_iff.mp hn₁
    cases l₂ with
    | nil => exact absurd hp.symm (by simp)
    | cons b t₂ =>
      have hab : a = b := by
        rcases List.mem_cons.mp (hp.mem_iff.mp (List.mem_cons_self a t₁)) with h | hat₂
        · exact h
        · rcases List.mem_cons.mp (hp.symm.mem_iff.mp (List.mem_cons_self b t₂)) with h | hbt₁
          · -- b = a, yet a ∈ t₂: duplicate key in l₂
            exfalso
            rw [List.map_cons, List.nodup_cons] at hn₂
            exact hn₂.1 (h ▸ List.mem_map_of_mem Prod.fst hat₂)
          · -- keyLE both ways, so keys equal; then l₁ has a duplicate key
            have h1 : keyLE a b := (List.pairwise_cons.mp hs₁).1 b hbt₁
            have h2 : keyLE b a := (List.pairwise_cons.mp hs₂).1 a hat₂
            have hk : a.1 = b.1 := le_antisymm h1 h2
            exfalso
            rw [List.map_cons, List.nodup_cons] at hn₁
            exact hn₁.1 (hk ▸ List.mem_map_of_mem Prod.fst hbt₁)
      subst hab
      have ht : t₁.Perm t₂ := hp.cons_inv
      rw [ih t₂ ht (List.pairwise_cons.mp hs₁).2 (List.pairwise_cons.mp hs₂).2
        (by rw [List.map_cons, List.nodup_cons] at hn₁; exact hn₁.2)]

theorem lookup_buildMultimap (ps : List (String × String)) (k : String) :
    lookupList (buildMultimap ps) k = valuesOf ps k := by
  have h := lookup_buildFold ps [] k
  simpa [buildMultimap, lookupList] using h

theorem mem_keys_buildMultimap (ps : List (String × String)) (k : String) :
    k ∈ (buildMultimap ps).map Prod.fst ↔ k ∈ encKeys ps := by
  have h := mem_keys_buildFold ps [] k
  simpa [buildMultimap] using h

theorem nodup_keys_buildMultimap (ps : List (String × String)) :
    ((buildMultimap ps).map Prod.fst).Nodup := by
  have h := nodup_keys_buildFold ps [] (by simp)
  simpa [buildMultimap] using h

theorem buildMultimap_entry (ps : List (String × String)) :
    ∀ kv ∈ buildMultimap ps, kv.2 = valuesOf ps kv.1 := by
  intro kv hkv
  rw [← lookup_buildMultimap ps kv.1]
  exact (lookup_self (buildMultimap ps) (nodup_keys_buildMultimap ps) kv hkv).symm

theorem canonicalItems_perm (ps₁ ps₂ : List (String × String)) (h : ps₁.Perm ps₂) :
    canonicalItems ps₁ = canonicalItems ps₂ := by
  have hq : (dropJwt ps₁).Perm (dropJwt ps₂) := List.Perm.filter _ h
  have hn₁ := nodup_keys_buildMultimap (dropJwt ps₁)
  have hn₂ := nodup_keys_buildMultimap (dropJwt ps₂)
  have hA₁ : (buildMultimap (dropJwt ps₁)).map (fun kv => (kv.1, sortStrings kv.2)) =
      ((buildMultimap (dropJwt ps₁)).map Prod.fst).map
        (fun k => (k, sortStrings (valuesOf (dropJwt ps₁) k))) := by
    rw [List.map_map]
    refine List.map_congr_left ?_
    intro kv hkv
    have he := buildMultimap_entry (dropJwt ps₁) kv hkv
    simp [Function.comp, he]
  have hA₂ : (buildMultimap (dropJwt ps₂)).map (fun kv => (kv.1, sortStrings kv.2)) =
      ((buildMultimap (dropJwt ps₂)).map Prod.fst).map
        (fun k => (k, sortStrings (valuesOf (dropJwt ps₁) k))) := by
    rw [List.map_map]
    refine List.map_congr_left ?_
    intro kv hkv
    have he := buildMultimap_entry (dropJwt ps₂) kv hkv
    have hv : sortStrings (valuesOf (dropJwt ps₂) kv.1) =
        sortStrings (valuesOf (dropJwt ps₁) kv.1) :=
      sortStrings_perm_eq (List.Perm.filterMap _ hq.symm)
    simp [Function.comp, he, hv]
  have hkperm : ((buildMultimap (dropJwt ps₁)).map Prod.fst).Perm
      ((buildMultimap (dropJwt ps₂)).map Prod.fst) := by
    rw [List.perm_ext_iff_of_nodup hn₁ hn₂]
    intro k
    rw [mem_keys_buildMultimap, mem_keys_buildMultimap]
    exact (hq.map _).mem_iff
  have hAperm : ((buildMultimap (dropJwt ps₁)).map (fun kv => (kv.1, sortStrings kv.2))).Perm
      ((buildMultimap (dropJwt ps₂)).map (fun kv => (kv.1, sortStrings kv.2))) := by
    rw [hA₁, hA₂]
    exact hkperm.map _
  have hKfst : ∀ ps : List (String × String),
      (((buildMultimap (dropJwt ps)).map Prod.fst).map
          (fun k => (k, sortStrings (valuesOf (dropJwt ps₁) k)))).map Prod.fst =
        (buildMultimap (dropJwt ps)).map Prod.fst := by
    intro ps
    rw [List.map_map]
    exact List.map_id' _
  have hnA₁ : (((buildMultimap (dropJwt ps₁)).map
      (fun kv => (kv.1, sortStrings kv.2))).map Prod.fst).Nodup := by
    rw [hA₁, hKfst]
    exact hn₁
  rw [canonicalItems, canonicalItems]
  refine eq_of_perm_keysorted _ _ ?_ ?_ ?_ ?_
  · exact ((List.perm_insertionSort keyLE _).trans hAperm).trans
      (List.perm_insertionSort keyLE _).symm
  · exact List.sorted_insertionSort keyLE _
  · exact List.sorted_insertionSort keyLE _
  · exact ((List.perm_insertionSort keyLE _).map Prod.fst).nodup_iff.mpr hnA₁

/-- Claim C7: for every method, path, base url and list of query
parameters, permuting the input query parameters yields an identical
canonicalization result — in particular an identical QSH — because the
canonicalizer percent-encodes, groups values by encoded key, sorts each
value list and sorts the keys before hashing; determinism for fixed
inputs holds because `canonicalize` is a pure function of its inputs. -/
theorem claim_C7 (base_url method uri : String) (ps₁ ps₂ : List (String × String))
    (h : ps₁.Perm ps₂) :
    canonicalize base_url method uri ps₁ = canonicalize base_url method uri ps₂ := by
  have hci := canonicalItems_perm ps₁ ps₂ h
  simp [canonicalize, canonicalQueryOf, hci]

/-- Witness for C7 at a concrete permutation of three pairs. -/
theorem claim_C7_witness :
    c7Pairs1.Perm c7Pairs2 ∧
    canonicalize "https://host/connect" "GET" "/rest/api/x" c7Pairs1 =
      canonicalize "https://host/connect" "GET" "/rest/api/x" c7Pairs2 :=
  ⟨by decide, claim_C7 "https://host/connect" "GET" "/rest/api/x" c7Pairs1 c7Pairs2 (by decide)⟩

end TestGenie
